import Mathlib

/-!
Shallow embedding of the note synchronization and AI-enrichment pipeline of
the ai-notes-vault repository: the text normalizer and mock-AI enrichment
functions of src/services/ai.js, the persistence gateway of
src/services/notes.js (createNote / getNote / updateNote and their
localStorage fallbacks), and the editor save path of
src/components/NoteEditor.jsx.  JavaScript numbers that matter here are
either 32-bit wrapped integers (modelled as Int with explicit wrapping) or
abstract reals (modelled as ℚ with the transcendental functions sin, cos and
sqrt taken as explicit function parameters).  Fallible code returns Except
or Option.
-/

namespace NotesVault

/-- Characters matched by the JavaScript regex class `\s` (the ones relevant
to this code base: ASCII whitespace and no-break space). -/
def isJsWs (c : Char) : Bool :=
  c = ' ' || c = '\t' || c = '\n' || c = '\r' || c = '\x0b' || c = '\x0c' || c = '\u00A0'

/-- Whether a `<` begins markup: in the HTML tokenizer a `<` opens a tag
(or comment / bogus comment) exactly when followed by an ASCII letter,
`/`, `!` or `?`; otherwise it is literal text. -/
def startsTag (l : List Char) : Bool :=
  match l with
  | [] => false
  | c :: _ => c.isAlpha || c = '/' || c = '!' || c = '?'

/-- Model of the browser DOM collaborator used at src/services/ai.js lines
11-16: assigning `tempDiv.innerHTML = htmlText` and reading back
`tempDiv.textContent`.  Tag tokens (from `<` that `startsTag` through the
next `>`, dropped entirely, also when the input ends inside the tag) are
removed and character references `&lt; &gt; &amp; &nbsp;` are decoded; all
other characters are literal text.  The boolean is true while inside a tag
token. -/
def stripHtmlAux : Bool → List Char → List Char
  | _, [] => []
  | true, c :: rest => if c = '>' then stripHtmlAux false rest else stripHtmlAux true rest
  | false, '&' :: 'l' :: 't' :: ';' :: rest => '<' :: stripHtmlAux false rest
  | false, '&' :: 'g' :: 't' :: ';' :: rest => '>' :: stripHtmlAux false rest
  | false, '&' :: 'a' :: 'm' :: 'p' :: ';' :: rest => '&' :: stripHtmlAux false rest
  | false, '&' :: 'n' :: 'b' :: 's' :: 'p' :: ';' :: rest => '\u00A0' :: stripHtmlAux false rest
  | false, '<' :: rest =>
    if startsTag rest then stripHtmlAux true rest else '<' :: stripHtmlAux false rest
  | false, c :: rest => c :: stripHtmlAux false rest

/-- The regex replacement `.replace(/\s+/g, ' ')` of src/services/ai.js line
20: every maximal run of `\s` characters becomes a single space.  The
boolean records whether the previous character was whitespace (i.e. we are
inside a run that has already emitted its space). -/
def collapseWsAux : Bool → List Char → List Char
  | _, [] => []
  | prevWs, c :: rest =>
    if isJsWs c then
      if prevWs then collapseWsAux true rest
      else ' ' :: collapseWsAux true rest
    else c :: collapseWsAux false rest

/-- The regex replacement `.replace(/\n+/g, ' ')` of src/services/ai.js line
21: every maximal run of newlines becomes a single space. -/
def collapseNlAux : Bool → List Char → List Char
  | _, [] => []
  | prevNl, c :: rest =>
    if c = '\n' then
      if prevNl then collapseNlAux true rest
      else ' ' :: collapseNlAux true rest
    else c :: collapseNlAux false rest

/-- JavaScript `String.prototype.trim`: drop leading and trailing `\s`. -/
def jsTrim (l : List Char) : List Char :=
  ((l.dropWhile isJsWs).reverse.dropWhile isJsWs).reverse

/-- String version of `jsTrim`. -/
def jsTrimStr (s : String) : String :=
  String.mk (jsTrim s.data)

/-- src/services/ai.js lines 8-25 `cleanTextForAI`: strip HTML through the
DOM, collapse whitespace runs to single spaces, collapse newline runs to
single spaces, trim.  Falsy (empty) input yields the empty string. -/
def cleanTextForAI (s : String) : String :=
  if s = "" then ""
  else String.mk (jsTrim (collapseNlAux false (collapseWsAux false (stripHtmlAux false s.data))))

/-- JavaScript `String.prototype.toLowerCase` (ASCII-relevant part). -/
def jsToLower (s : String) : String :=
  String.mk (s.data.map Char.toLower)

/-- JavaScript `String.prototype.includes`. -/
def jsIncludes (s pat : String) : Bool :=
  decide (pat.data <:+: s.data)

/-- Split on maximal runs of characters satisfying `p`, dropping empty
segments; `cur` is the current segment accumulated in reverse.  Composed
with the emptiness filters the source applies, this models
`split(/CLASS+/)` for a character class `CLASS`. -/
def splitRunsAux (p : Char → Bool) (cur : List Char) : List Char → List (List Char)
  | [] => if cur.isEmpty then [] else [cur.reverse]
  | c :: rest =>
    if p c then
      if cur.isEmpty then splitRunsAux p [] rest
      else cur.reverse :: splitRunsAux p [] rest
    else splitRunsAux p (c :: cur) rest

/-- String version of `splitRunsAux`. -/
def splitRuns (p : Char → Bool) (s : String) : List String :=
  (splitRunsAux p [] s.data).map String.mk

/-- Sentence-ending characters of the regex `[.!?]+` at ai.js line 272. -/
def isSentenceEnd (c : Char) : Bool :=
  c = '.' || c = '!' || c = '?'

/-- Complement of the JavaScript word-character class `\w` (ai.js line 301
splits on `/\W+/`). -/
def isNonWordChar (c : Char) : Bool :=
  !(c.isAlphanum || c = '_')

/-- The stop-word list of ai.js lines 283-286. -/
def stopWords : List String :=
  ["that", "this", "with", "have", "will", "been", "from", "they", "were",
   "said", "each", "which", "their", "time", "would", "there", "could", "other"]

/-- ai.js lines 282-296: the key-word themes fallback and the final
truncation fallback of the mock summary. -/
def mockSummaryThemes (words : List String) (maxLength : Nat) : String :=
  let keyWords := words.filter (fun w => w.length > 4 && !(stopWords.contains w))
  if keyWords.isEmpty then
    let targetWords := maxLength / 6
    let summary := String.intercalate " " (words.take targetWords)
    summary ++ (if words.length > targetWords then "..." else "")
  else
    let themes := String.intercalate ", " (keyWords.take 3)
    "Note covering topics related to " ++ themes ++ "."

/-- ai.js lines 229-297 `generateMockSummary`. -/
def generateMockSummary (text : String) (maxLength : Nat) : String :=
  if text = "" || text.length < 10 then "No content to summarize"
  else
    let cleanText := jsTrimStr (jsToLower text)
    if text.length ≤ maxLength then text
    else
      let words := splitRuns isJsWs cleanText
      if jsIncludes cleanText "recipe" || jsIncludes cleanText "ingredients" || jsIncludes cleanText "cook" then
        "Recipe with cooking instructions and ingredients list."
      else if jsIncludes cleanText "meeting" || jsIncludes cleanText "standup" || jsIncludes cleanText "attendees" then
        "Meeting notes with discussion points and action items."
      else if jsIncludes cleanText "project" || jsIncludes cleanText "plan" || jsIncludes cleanText "phase" then
        "Project planning document with timeline and objectives."
      else if jsIncludes cleanText "learn" || jsIncludes cleanText "study" || jsIncludes cleanText "concept" then
        "Educational notes covering key concepts and learning materials."
      else if jsIncludes cleanText "life" || jsIncludes cleanText "feel" || jsIncludes cleanText "hate" || jsIncludes cleanText "job" then
        "Personal reflection and thoughts about life circumstances."
      else if jsIncludes cleanText "code" || jsIncludes cleanText "function" || jsIncludes cleanText "api" then
        "Technical documentation or code-related notes."
      else
        let sentences := (splitRuns isSentenceEnd text).filter (fun s => (jsTrimStr s).length > 0)
        match sentences with
        | s0 :: _ =>
          let firstSentence := jsTrimStr s0
          if firstSentence.length ≤ maxLength then firstSentence ++ "."
          else mockSummaryThemes words maxLength
        | [] => mockSummaryThemes words maxLength

/-- The de-duplication idiom `[...new Set(xs)]` and
`.filter((tag, index, arr) => arr.indexOf(tag) === index)`: keep the first
occurrence of each element, preserving order. -/
def jsDedup (l : List String) : List String :=
  l.foldl (fun acc x => if acc.contains x then acc else acc ++ [x]) []

/-- ai.js lines 299-307 `generateMockTags`. -/
def generateMockTags (text : String) (maxTags : Nat) : List String :=
  let commonWords := ["note", "idea", "project", "work", "personal", "important", "draft", "research"]
  let words := (splitRuns isNonWordChar (jsToLower text)).filter (fun w => w.length > 3)
  let uniqueWords := jsDedup words
  let tags := uniqueWords.take (maxTags / 2) ++ commonWords.take ((maxTags + 1) / 2)
  tags.take maxTags

/-- JavaScript `ToInt32`: wrap an integer to the range `[-2^31, 2^31)`
(the literals are 2^31 and 2^32). -/
def toInt32 (n : Int) : Int :=
  (n + 2147483648) % 4294967296 - 2147483648

/-- One step of ai.js lines 322-330 `simpleHash`:
`hash = ((hash << 5) - hash) + char; hash = hash & hash`.  The shift
operates on 32-bit wrapped values (`hash << 5` is `ToInt32 (hash * 32)`),
the subtraction and addition are exact (their magnitudes stay far below
2^53), and `hash & hash` wraps the result back to 32 bits. -/
def simpleHashStep (hash : Int) (char : Nat) : Int :=
  toInt32 (toInt32 (hash * 32) - hash + char)

/-- ai.js lines 322-330 `simpleHash`: fold the step over the character
codes of the string, starting from 0. -/
def simpleHash (s : String) : Int :=
  s.data.foldl (fun h c => simpleHashStep h c.toNat) 0

/-- ai.js lines 309-320 `generateMockEmbedding`: a 1536-element vector
whose element `i` is `(sin seed + cos (seed * 2)) / 2` for
`seed = simpleHash text + i`.  `sin` and `cos` are the `Math.sin` /
`Math.cos` collaborators, taken as parameters. -/
def generateMockEmbedding (sin cos : Int → ℚ) (text : String) : List ℚ :=
  let hash := simpleHash text
  (List.range 1536).map (fun i : Nat =>
    let seed := hash + (i : Int)
    (sin seed + cos (seed * 2)) / 2)

/-- Result of one of the enrichment entry points together with whether the
`openaiApi` network branch was reached (`externalCall = true` only on the
unreachable real-backend path, since `isAIEnabled` is pinned false). -/
structure AIOut (α : Type) where
  value : α
  externalCall : Bool
  deriving DecidableEq, Repr

/-- ai.js line 44: the real backend is intentionally disabled. -/
def isAIEnabled : Bool := false

/-- ai.js lines 70-120 `getSummary`.  The network branch is dead code under
`isAIEnabled = false`; it is modelled by its catch-handler fallback value
with `externalCall = true`. -/
def getSummary (text : String) (maxLength : Nat) : AIOut String :=
  let cleanText := cleanTextForAI text
  if cleanText.length < 50 then
    ⟨if cleanText.length > 0 then cleanText else "No content to summarize", false⟩
  else if isAIEnabled = false then
    ⟨generateMockSummary cleanText maxLength, false⟩
  else
    ⟨generateMockSummary cleanText maxLength, true⟩

/-- ai.js lines 128-168 `getTags`.  The network branch is dead code under
`isAIEnabled = false`; it is modelled by its catch-handler fallback value
with `externalCall = true`. -/
def getTags (text : String) (maxTags : Nat) : AIOut (List String) :=
  let cleanText := cleanTextForAI text
  if cleanText.length < 20 then
    ⟨[], false⟩
  else if isAIEnabled = false then
    ⟨generateMockTags cleanText maxTags, false⟩
  else
    ⟨generateMockTags cleanText maxTags, true⟩

/-- ai.js lines 175-195 `getEmbedding`.  The network branch is dead code
under `isAIEnabled = false`; it is modelled by its catch-handler fallback
value with `externalCall = true`. -/
def getEmbedding (sin cos : Int → ℚ) (text : String) : AIOut (List ℚ) :=
  let cleanText := cleanTextForAI text
  if isAIEnabled = false || cleanText.length < 10 then
    ⟨generateMockEmbedding sin cos cleanText, false⟩
  else
    ⟨generateMockEmbedding sin cos cleanText, true⟩

/-- Sum of squares accumulated by the loop of ai.js lines 212-216. -/
def sumSquares (l : List ℚ) : ℚ :=
  l.foldl (fun s x => s + x * x) 0

/-- ai.js lines 203-226 `cosineSimilarity`.  `sqrt` is the `Math.sqrt`
collaborator, taken as a parameter.  Throwing is modelled as `Except.error`
with the thrown message. -/
def cosineSimilarity (sqrt : ℚ → ℚ) (a b : List ℚ) : Except String ℚ :=
  if a.length ≠ b.length then
    Except.error "Vectors must have the same length"
  else
    let dotProduct := (a.zip b).foldl (fun s p => s + p.1 * p.2) 0
    let normA := sqrt (sumSquares a)
    let normB := sqrt (sumSquares b)
    if normA = 0 ∨ normB = 0 then Except.ok 0
    else Except.ok (dotProduct / (normA * normB))

/-- One immutable version snapshot (data model of the notes service). -/
structure Version where
  title : String
  content : String
  timestamp : String
  deriving DecidableEq, Repr

/-- A stored note, with the fields the notes service and the editor touch.
Fields that a JavaScript note object may lack (`summary`, `embedding`,
`sharedWith`) are `Option`. -/
structure Note where
  id : String
  title : String
  content : String
  tags : List String
  summary : Option String
  embedding : Option (List ℚ)
  ownerId : String
  sharedWith : Option (List String)
  createdAt : String
  updatedAt : String
  versions : List Version
  deriving DecidableEq, Repr

/-- The `noteData` argument the editor passes to `createNote`. -/
structure NoteData where
  title : String
  content : String
  tags : List String
  deriving DecidableEq, Repr

/-- The `updates` argument of `updateNote`: a JavaScript partial object,
absent keys are `none`. -/
structure Updates where
  title : Option String
  content : Option String
  tags : Option (List String)
  deriving DecidableEq, Repr

/-- JavaScript `x || d` for a string-valued `x` that may be absent: an
absent or empty (falsy) string falls through to the default. -/
def jsOrStr (o : Option String) (d : String) : String :=
  match o with
  | some s => if s = "" then d else s
  | none => d

/-- notes.js lines 519-542 `getNote`.  `stored` is the document the remote
`getDoc` resolves for the requested id (`none` when it does not exist).
The access-denied throw is caught by the surrounding handler, which
returns null. -/
def getNote (stored : Option Note) (userId : String) : Option Note :=
  match stored with
  | none => none
  | some noteData =>
    if noteData.ownerId ≠ userId ∧ (noteData.sharedWith.getD []).contains userId = false then
      none
    else some noteData

/-- notes.js lines 704-722 `createNoteInLocalStorage`.  `nowMs` is
`Date.now()`, used to generate the id; `now` is the ISO timestamp.
Returns the created note and the new localStorage contents. -/
def createNoteInLocalStorage (noteData : NoteData) (userId : String) (now : String)
    (nowMs : Nat) (notes : List Note) : Note × List Note :=
  let newNote : Note :=
    { id := toString nowMs
      title := noteData.title
      content := noteData.content
      tags := noteData.tags
      summary := none
      embedding := none
      ownerId := userId
      sharedWith := none
      createdAt := now
      updatedAt := now
      versions := [⟨noteData.title, noteData.content, now⟩] }
  (newNote, notes ++ [newNote])

/-- notes.js lines 550-587 `createNote`.  `remoteId` is `some docId` when
the remote `addDoc` succeeds and assigns `docId`, and `none` when any
remote write throws, in which case the catch handler falls back to
`createNoteInLocalStorage`. -/
def createNote (sin cos : Int → ℚ) (noteData : NoteData) (userId : String)
    (remoteId : Option String) (now : String) (nowMs : Nat) (notes : List Note) :
    Note × List Note :=
  let summary := if noteData.content ≠ "" then (getSummary noteData.content 150).value else ""
  let aiTags := if noteData.content ≠ "" then (getTags noteData.content 5).value else []
  let embedding :=
    if noteData.content ≠ "" then some (getEmbedding sin cos noteData.content).value else none
  match remoteId with
  | some docId =>
    ({ id := docId
       title := noteData.title
       content := noteData.content
       tags := jsDedup (noteData.tags ++ aiTags)
       summary := some summary
       embedding := embedding
       ownerId := userId
       sharedWith := none
       createdAt := now
       updatedAt := now
       versions := [⟨noteData.title, noteData.content, now⟩] }, notes)
  | none => createNoteInLocalStorage noteData userId now nowMs notes

/-- notes.js lines 724-748 `updateNoteInLocalStorage`.  Throws (as
`Except.error`) when no note matches the id and owner.  Returns the
updated note and the new localStorage contents. -/
def updateNoteInLocalStorage (noteId : String) (updates : Updates) (userId : String)
    (now : String) (notes : List Note) : Except String (Note × List Note) :=
  match notes.findIdx? (fun n => n.id == noteId && n.ownerId == userId) with
  | none => Except.error "Note not found"
  | some noteIndex =>
    match notes[noteIndex]? with
    | none => Except.error "Note not found"
    | some currentNote =>
      let newVersion : Version :=
        ⟨jsOrStr updates.title currentNote.title, jsOrStr updates.content currentNote.content, now⟩
      let updatedNote : Note :=
        { currentNote with
          title := updates.title.getD currentNote.title
          content := updates.content.getD currentNote.content
          tags := updates.tags.getD currentNote.tags
          updatedAt := now
          versions := currentNote.versions ++ [newVersion] }
      Except.ok (updatedNote, notes.set noteIndex updatedNote)

/-- notes.js lines 596-647 `updateNote`.  `currentNote?` is the result of
the initial `getNote` against the remote store (`none` both when the note
does not exist and when access is denied); `remoteWriteOk` is whether the
remote `updateDoc` succeeds.  Any throw inside the try block (missing
note, failed remote write) lands in the catch handler, which retries
against localStorage. -/
def updateNote (sin cos : Int → ℚ) (noteId : String) (updates : Updates) (userId : String)
    (currentNote? : Option Note) (remoteWriteOk : Bool) (now : String) (notes : List Note) :
    Except String (Note × List Note) :=
  match currentNote? with
  | none => updateNoteInLocalStorage noteId updates userId now notes
  | some currentNote =>
    let ai : Option (String × List String × List ℚ) :=
      match updates.content with
      | some c =>
        if c = "" ∨ c = currentNote.content then none
        else
          some ((getSummary c 150).value,
                jsDedup ((updates.tags.getD currentNote.tags) ++ (getTags c 5).value),
                (getEmbedding sin cos c).value)
      | none => none
    let newVersion : Version :=
      ⟨jsOrStr updates.title currentNote.title, jsOrStr updates.content currentNote.content, now⟩
    let updatedNote : Note :=
      { currentNote with
        title := updates.title.getD currentNote.title
        content := updates.content.getD currentNote.content
        tags := match ai with
                | some (_, t, _) => t
                | none => updates.tags.getD currentNote.tags
        summary := match ai with
                   | some (s, _, _) => some s
                   | none => currentNote.summary
        embedding := match ai with
                     | some (_, _, e) => some e
                     | none => currentNote.embedding
        updatedAt := now
        versions := currentNote.versions ++ [newVersion] }
    if remoteWriteOk then Except.ok (updatedNote, notes)
    else updateNoteInLocalStorage noteId updates userId now notes

/-- Insert a scored note into a list already sorted by descending
similarity, after every entry whose similarity is at least as large (the
stable order the comparator `(a, b) => b.similarity - a.similarity`
produces). -/
def insertBySim (x : Note × ℚ) : List (Note × ℚ) → List (Note × ℚ)
  | [] => [x]
  | y :: ys => if y.2 < x.2 then x :: y :: ys else y :: insertBySim x ys

/-- Stable sort by descending similarity, modelling
`.sort((a, b) => b.similarity - a.similarity)`. -/
def sortBySimDesc : List (Note × ℚ) → List (Note × ℚ)
  | [] => []
  | x :: xs => insertBySim x (sortBySimDesc xs)

/-- The `.map` of ai.js lines 345-348 that pairs each note with its
similarity score: `none` when any `cosineSimilarity` call throws (the
throw aborts the whole map and lands in the catch handler). -/
def scoreAll (sqrt : ℚ → ℚ) (queryEmbedding : List ℚ) : List Note → Option (List (Note × ℚ))
  | [] => some []
  | n :: rest =>
    match n.embedding with
    | none => none
    | some e =>
      match cosineSimilarity sqrt queryEmbedding e, scoreAll sqrt queryEmbedding rest with
      | Except.ok s, some ps => some ((n, s) :: ps)
      | _, _ => none

/-- ai.js lines 339-357 `semanticSearch`: embed the query, keep the notes
whose `embedding` field is set (truthy), score each against the query
embedding, sort descending, truncate to `limit`.  A throw from
`cosineSimilarity` (dimension mismatch) propagates to the catch handler,
which returns the empty list. -/
def semanticSearch (sin cos : Int → ℚ) (sqrt : ℚ → ℚ) (query : String)
    (notes : List Note) (limit : Nat) : List (Note × ℚ) :=
  match scoreAll sqrt ((getEmbedding sin cos query).value)
      (notes.filter (fun n => n.embedding.isSome)) with
  | none => []
  | some scored => (sortBySimDesc scored).take limit

/-- `semanticSearch` at its default result limit of 10. -/
def semanticSearchDefault (sin cos : Int → ℚ) (sqrt : ℚ → ℚ) (query : String)
    (notes : List Note) : List (Note × ℚ) :=
  semanticSearch sin cos sqrt query notes 10

/-- The editor state the save handlers of NoteEditor.jsx close over. -/
structure EditorState where
  title : String
  content : String
  tags : List String
  summary : String
  embedding : Option (List ℚ)
  deriving DecidableEq, Repr

/-- The `noteData` object built identically by `handleAutoSave`
(NoteEditor.jsx lines 114-125) and `handleSave` (lines 150-161): an empty
(falsy) title becomes the literal string Untitled, and `versions` is
carried over unchanged from the existing note (empty for a new note). -/
def editorNoteData (st : EditorState) (existingNote : Option Note)
    (userUid : String) (now : String) (newId : String) : Note :=
  { id := match existingNote with
          | some n => n.id
          | none => newId
    title := if st.title = "" then "Untitled" else st.title
    content := st.content
    tags := st.tags
    summary := some st.summary
    embedding := st.embedding
    ownerId := userUid
    sharedWith := none
    createdAt := match existingNote with
                 | some n => n.createdAt
                 | none => now
    updatedAt := now
    versions := match existingNote with
                | some n => n.versions
                | none => [] }

/-- NoteEditor.jsx lines 109-145 `handleAutoSave`: a no-op (`none`) when
both title and content are empty, otherwise builds `noteData` and writes
it into the saved-notes collection, replacing the entry with the same id
or appending.  `newId` is the freshly generated uuid used when there is no
existing note. -/
def handleAutoSave (st : EditorState) (existingNote : Option Note)
    (userUid : String) (now : String) (newId : String) (savedNotes : List Note) :
    Option (Note × List Note) :=
  if st.title = "" ∧ st.content = "" then none
  else
    let noteData := editorNoteData st existingNote userUid now newId
    match savedNotes.findIdx? (fun n => n.id == noteData.id) with
    | some i => some (noteData, savedNotes.set i noteData)
    | none => some (noteData, savedNotes ++ [noteData])

/-- NoteEditor.jsx lines 147-175 `handleSave`: builds `noteData`
unconditionally, persists through `handleAutoSave`, and hands `noteData`
to the `onSave` callback (whose Dashboard implementation stores it).  The
first component is the `noteData` passed to `onSave`; the second is the
`handleAutoSave` persistence outcome. -/
def handleSave (st : EditorState) (existingNote : Option Note)
    (userUid : String) (now : String) (newId : String) (savedNotes : List Note) :
    Note × Option (Note × List Note) :=
  (editorNoteData st existingNote userUid now newId,
   handleAutoSave st existingNote userUid now newId savedNotes)

/-- The stored note the `updateNoteInLocalStorage` lookup resolves: the
first entry matching the requested id and owner.  `updateNoteInLocalStorage`
succeeds exactly when this is `some`. -/
def storedAt (notes : List Note) (noteId userId : String) : Option Note :=
  (notes.findIdx? (fun n => n.id == noteId && n.ownerId == userId)).bind
    (fun i => notes[i]?)

/-- Zero stand-in for the `Math.sin` / `Math.cos` collaborators in concrete
witness instances. -/
def zfun : Int → ℚ := fun _ => 0

/-- Zero stand-in for the `Math.sqrt` collaborator in concrete witness
instances (it maps 0 to 0, which is all the statements use). -/
def zsqrt : ℚ → ℚ := fun _ => 0

/-- A concrete stored note used by counterexamples and witnesses. -/
def cexNote : Note :=
  { id := "1"
    title := "t"
    content := "hello world"
    tags := []
    summary := none
    embedding := none
    ownerId := "u1"
    sharedWith := none
    createdAt := "2024-01-01"
    updatedAt := "2024-01-01"
    versions := [⟨"t", "hello world", "2024-01-01"⟩] }

/-- An update whose `content` is identical to `cexNote`'s stored content. -/
def cexSameContent : Updates := ⟨none, some "hello world", none⟩

/-- An update whose `content` key is present but holds the empty string. -/
def cexEmptyContent : Updates := ⟨none, some "", none⟩

/-- A note with no stored embedding, for the semantic-search witness. -/
def noteNoEmb : Note :=
  { id := "d"
    title := "D"
    content := "no embedding here"
    tags := []
    summary := none
    embedding := none
    ownerId := "u1"
    sharedWith := none
    createdAt := "2024-01-01"
    updatedAt := "2024-01-01"
    versions := [] }

/-- A note whose stored embedding is the mock embedding of the query used
in the semantic-search witness (hence of matching dimension). -/
def noteWithEmb : Note :=
  { id := "b"
    title := "B"
    content := "has an embedding"
    tags := []
    summary := none
    embedding := some (getEmbedding zfun zfun "some query").value
    ownerId := "u1"
    sharedWith := none
    createdAt := "2024-01-01"
    updatedAt := "2024-01-01"
    versions := [] }

end NotesVault


namespace NotesVault

/-- C3: for every noteData and owner identity, when every remote-store write
fails (`remoteId = none`), createNote still returns normally with a valid
note that has a generated id (`Date.now().toString()`), ownerId set to the
caller, client-generated timestamps (createdAt = updatedAt = now), and a
versions sequence containing exactly one entry. -/
theorem C3_create_fallback (sin cos : Int → ℚ) (noteData : NoteData) (userId now : String)
    (nowMs : Nat) (notes : List Note) :
    (createNote sin cos noteData userId none now nowMs notes).1.id = toString nowMs ∧
    (createNote sin cos noteData userId none now nowMs notes).1.ownerId = userId ∧
    (createNote sin cos noteData userId none now nowMs notes).1.createdAt = now ∧
    (createNote sin cos noteData userId none now nowMs notes).1.updatedAt = now ∧
    (createNote sin cos noteData userId none now nowMs notes).1.versions =
      [⟨noteData.title, noteData.content, now⟩] ∧
    (createNote sin cos noteData userId none now nowMs notes).1.versions.length = 1 := by
  simp [createNote, createNoteInLocalStorage]

/-- C8: for every stored note and every requester identity that is neither
the note's ownerId nor a member of its sharedWith set (an absent sharedWith
counts as empty), getNote returns not-found (none) rather than the note. -/
theorem C8_read_access_denied (d : Note) (requesterId : String)
    (howner : d.ownerId ≠ requesterId)
    (hshared : requesterId ∉ d.sharedWith.getD []) :
    getNote (some d) requesterId = none := by
  have hc : (d.sharedWith.getD []).contains requesterId = false := by
    simp [List.contains, hshared]
  simp only [getNote]
  rw [if_pos ⟨howner, hc⟩]

/-- C8 witness: a concrete stored note owned by u1 and shared with nobody
is not returned to requester mallory. -/
theorem C8_witness : getNote (some cexNote) "mallory" = none :=
  C8_read_access_denied cexNote "mallory" (by decide) (by decide)

/-- C10: for every editor save with non-empty content but an empty title,
the persisted note's title is the literal string Untitled; consequently
every note persisted through the editor's save path (automatic or explicit)
has a non-empty title. -/
theorem C10_editor_title (st : EditorState) (existingNote : Option Note)
    (userUid now newId : String) (savedNotes : List Note) :
    (st.content ≠ "" → st.title = "" →
      ∃ newNotes, handleAutoSave st existingNote userUid now newId savedNotes =
        some (editorNoteData st existingNote userUid now newId, newNotes) ∧
        (editorNoteData st existingNote userUid now newId).title = "Untitled") ∧
    (∀ n newNotes, handleAutoSave st existingNote userUid now newId savedNotes =
        some (n, newNotes) → n.title ≠ "") ∧
    (handleSave st existingNote userUid now newId savedNotes).1.title ≠ "" := by
  refine ⟨?_, ?_, ?_⟩
  · intro hc ht
    have hno : ¬(st.title = "" ∧ st.content = "") := fun hh => hc hh.2
    simp only [handleAutoSave]
    rw [if_neg hno]
    cases hfind : savedNotes.findIdx?
        (fun n => n.id == (editorNoteData st existingNote userUid now newId).id) with
    | none => exact ⟨_, rfl, by simp [editorNoteData, ht]⟩
    | some i => exact ⟨_, rfl, by simp [editorNoteData, ht]⟩
  · intro n newNotes hsave
    simp only [handleAutoSave] at hsave
    by_cases hno : (st.title = "" ∧ st.content = "")
    · rw [if_pos hno] at hsave; exact absurd hsave (by simp)
    · rw [if_neg hno] at hsave
      cases hfind : savedNotes.findIdx?
          (fun n => n.id == (editorNoteData st existingNote userUid now newId).id) with
      | none =>
        rw [hfind] at hsave
        cases hsave
        by_cases ht : st.title = "" <;> simp [editorNoteData, ht]
      | some i =>
        rw [hfind] at hsave
        cases hsave
        by_cases ht : st.title = "" <;> simp [editorNoteData, ht]
  · by_cases ht : st.title = "" <;> simp [handleSave, editorNoteData, ht]

/-- C10 witness: saving with empty title and content body persists the
title Untitled, at a concrete editor state. -/
theorem C10_witness :
    ("body" ≠ "" → "" = "" →
      ∃ newNotes, handleAutoSave ⟨"", "body", [], "", none⟩ none "u" "t" "id7" [] =
        some (editorNoteData ⟨"", "body", [], "", none⟩ none "u" "t" "id7", newNotes) ∧
        (editorNoteData ⟨"", "body", [], "", none⟩ none "u" "t" "id7").title = "Untitled") ∧
    (∀ n newNotes, handleAutoSave ⟨"", "body", [], "", none⟩ none "u" "t" "id7" [] =
        some (n, newNotes) → n.title ≠ "") ∧
    (handleSave ⟨"", "body", [], "", none⟩ none "u" "t" "id7" []).1.title ≠ "" :=
  C10_editor_title ⟨"", "body", [], "", none⟩ none "u" "t" "id7" []

/-- C6: inputs whose normalized text is below the minimum length
thresholds short-circuit without any external call: getSummary on
normalized text shorter than 50 characters returns that text verbatim (or
the fixed no-content sentinel when it is empty), getTags on normalized text
shorter than 20 characters returns the empty list, and getEmbedding on
normalized text shorter than 10 characters returns the deterministic
fallback embedding. -/
theorem C6_short_circuit (sin cos : Int → ℚ) (text : String) (maxLength maxTags : Nat) :
    ((cleanTextForAI text).length < 50 →
      getSummary text maxLength =
        ⟨if (cleanTextForAI text).length > 0 then cleanTextForAI text
          else "No content to summarize", false⟩) ∧
    ((cleanTextForAI text).length < 20 → getTags text maxTags = ⟨[], false⟩) ∧
    ((cleanTextForAI text).length < 10 →
      getEmbedding sin cos text =
        ⟨generateMockEmbedding sin cos (cleanTextForAI text), false⟩) := by
  refine ⟨fun h => ?_, fun h => ?_, fun h => ?_⟩ <;>
    simp [getSummary, getTags, getEmbedding, isAIEnabled, h]

/-- C6 witness: the input hi is below all three thresholds and receives
the verbatim summary, the empty tag list, and the mock embedding, with no
external call. -/
theorem C6_witness :
    (cleanTextForAI "hi").length < 50 ∧ (cleanTextForAI "hi").length < 20 ∧
    (cleanTextForAI "hi").length < 10 ∧
    getSummary "hi" 150 = ⟨"hi", false⟩ ∧
    getTags "hi" 5 = ⟨[], false⟩ ∧
    getEmbedding zfun zfun "hi" = ⟨generateMockEmbedding zfun zfun (cleanTextForAI "hi"), false⟩ := by
  have h := C6_short_circuit zfun zfun "hi" 150 5
  refine ⟨by decide, by decide, by decide, ?_, h.2.1 (by decide), h.2.2 (by decide)⟩
  have h1 := h.1 (by decide)
  simpa [show cleanTextForAI "hi" = "hi" from by decide] using h1

end NotesVault

namespace NotesVault

lemma toInt32_add_left (a b : Int) : toInt32 (toInt32 a + b) = toInt32 (a + b) := by
  unfold toInt32
  omega

lemma simpleHashStep_eq31 (h : Int) (c : Nat) : simpleHashStep h c = toInt32 (31 * h + c) := by
  unfold simpleHashStep
  rw [show toInt32 (h * 32) - h + (c : Int) = toInt32 (h * 32) + (-h + c) from by ring,
    toInt32_add_left, show h * 32 + (-h + (c : Int)) = 31 * h + c from by ring]

lemma simpleHash_eq31 (s : String) :
    simpleHash s = s.data.foldl (fun h c => toInt32 (31 * h + c.toNat)) 0 := by
  unfold simpleHash
  exact List.foldl_ext _ _ _ (fun a b _ => simpleHashStep_eq31 a b.toNat)

lemma generateMockEmbedding_eq (sin cos : Int → ℚ) (text : String) :
    generateMockEmbedding sin cos text =
      (List.range 1536).map (fun i : Nat =>
        (sin (simpleHash text + (i : Int)) + cos ((simpleHash text + (i : Int)) * 2)) / 2) := rfl

/-- C7: under the fallback path the produced embedding is a vector of the
fixed corpus-wide length 1536 whose element i equals
(sin(hash + i) + cos(2 * (hash + i))) / 2, where hash is the 32-bit rolling
hash hash := toInt32 (31 * hash + charCode) folded over the text; two calls
with identical text yield identical vectors. -/
theorem C7_mock_embedding (sin cos : Int → ℚ) (text : String) (i : Nat) (hi : i < 1536) :
    (generateMockEmbedding sin cos text).length = 1536 ∧
    (generateMockEmbedding sin cos text)[i]? =
      some ((sin (simpleHash text + i) + cos (2 * (simpleHash text + i))) / 2) ∧
    simpleHash text = text.data.foldl (fun h c => toInt32 (31 * h + c.toNat)) 0 ∧
    (∀ text2, text = text2 →
      generateMockEmbedding sin cos text = generateMockEmbedding sin cos text2) := by
  refine ⟨?_, ?_, simpleHash_eq31 text, fun _ ht => ht ▸ rfl⟩
  · rw [generateMockEmbedding_eq, List.length_map, List.length_range]
  · rw [generateMockEmbedding_eq, List.getElem?_map, List.getElem?_range hi]
    simp only [Option.map_some']
    rw [show (simpleHash text + (i : Int)) * 2 = 2 * (simpleHash text + i) from by ring]

/-- C7 witness: the mock embedding of the text a, at index 0, with the
zero stand-ins for sin and cos. -/
theorem C7_witness :
    0 < 1536 ∧
    ((generateMockEmbedding zfun zfun "a").length = 1536 ∧
     (generateMockEmbedding zfun zfun "a")[0]? =
       some ((zfun (simpleHash "a" + (0 : Nat)) + zfun (2 * (simpleHash "a" + (0 : Nat)))) / 2) ∧
     simpleHash "a" = "a".data.foldl (fun h c => toInt32 (31 * h + c.toNat)) 0 ∧
     (∀ text2, "a" = text2 →
       generateMockEmbedding zfun zfun "a" = generateMockEmbedding zfun zfun text2)) :=
  ⟨by decide, C7_mock_embedding zfun zfun "a" 0 (by decide)⟩

lemma foldl_sq_all_zero (l : List ℚ) (init : ℚ) (h : ∀ x ∈ l, x = 0) :
    l.foldl (fun s x => s + x * x) init = init := by
  induction l generalizing init with
  | nil => rfl
  | cons x xs ih =>
    have hx : x = 0 := h x (by simp)
    simp only [List.foldl_cons, hx]
    rw [show init + (0 : ℚ) * 0 = init from by ring]
    exact ih init (fun y hy => h y (List.mem_cons_of_mem _ hy))

lemma sumSquares_all_zero (a : List ℚ) (h : ∀ x ∈ a, x = 0) : sumSquares a = 0 :=
  foldl_sq_all_zero a 0 h

/-- C4: cosineSimilarity fails with the dimension-mismatch error exactly
when the two vectors have different lengths; when the lengths are equal it
always returns a value, and it returns 0 whenever either computed norm is
zero (in particular for an all-zero vector, given sqrt 0 = 0), without
dividing. -/
theorem C4_cosine (sqrt : ℚ → ℚ) (a b : List ℚ) (h0 : sqrt 0 = 0) :
    ((∃ q, cosineSimilarity sqrt a b = Except.ok q) ↔ a.length = b.length) ∧
    (a.length ≠ b.length →
      cosineSimilarity sqrt a b = Except.error "Vectors must have the same length") ∧
    (a.length = b.length →
      sqrt (sumSquares a) = 0 ∨ sqrt (sumSquares b) = 0 →
      cosineSimilarity sqrt a b = Except.ok 0) ∧
    (a.length = b.length → (∀ x ∈ a, x = 0) →
      cosineSimilarity sqrt a b = Except.ok 0) := by
  by_cases hl : a.length = b.length
  · have hne : ¬(a.length ≠ b.length) := by simpa using hl
    unfold cosineSimilarity
    simp only [if_neg hne]
    refine ⟨⟨fun _ => hl, fun _ => ?_⟩, fun hcon => absurd hl hcon,
      fun _ hz => by rw [if_pos hz], fun _ hall => ?_⟩
    · by_cases hz : sqrt (sumSquares a) = 0 ∨ sqrt (sumSquares b) = 0
      · exact ⟨0, by rw [if_pos hz]⟩
      · exact ⟨_, by rw [if_neg hz]⟩
    · have hsa : sqrt (sumSquares a) = 0 := by rw [sumSquares_all_zero a hall, h0]
      rw [if_pos (Or.inl hsa)]
  · have herr : cosineSimilarity sqrt a b = Except.error "Vectors must have the same length" := by
      unfold cosineSimilarity
      rw [if_pos hl]
    refine ⟨⟨fun hex => ?_, fun hcon => absurd hcon hl⟩, fun _ => herr,
      fun hcon => absurd hcon hl, fun hcon => absurd hcon hl⟩
    obtain ⟨q, hq⟩ := hex
    rw [herr] at hq
    cases hq

/-- C4 witness: two equal-length all-zero singleton vectors, with the
zero stand-in for sqrt. -/
theorem C4_witness :
    ((∃ q, cosineSimilarity zsqrt [(0 : ℚ)] [(0 : ℚ)] = Except.ok q) ↔
      ([(0 : ℚ)].length = [(0 : ℚ)].length)) ∧
    ([(0 : ℚ)].length ≠ [(0 : ℚ)].length →
      cosineSimilarity zsqrt [(0 : ℚ)] [(0 : ℚ)] = Except.error "Vectors must have the same length") ∧
    ([(0 : ℚ)].length = [(0 : ℚ)].length →
      zsqrt (sumSquares [(0 : ℚ)]) = 0 ∨ zsqrt (sumSquares [(0 : ℚ)]) = 0 →
      cosineSimilarity zsqrt [(0 : ℚ)] [(0 : ℚ)] = Except.ok 0) ∧
    ([(0 : ℚ)].length = [(0 : ℚ)].length → (∀ x ∈ [(0 : ℚ)], x = 0) →
      cosineSimilarity zsqrt [(0 : ℚ)] [(0 : ℚ)] = Except.ok 0) :=
  C4_cosine zsqrt [(0 : ℚ)] [(0 : ℚ)] rfl

end NotesVault

namespace NotesVault

lemma jsOrStr_self (d : String) : jsOrStr (some d) d = d := by
  simp [jsOrStr]

lemma jsOrStr_eq_getD (o : Option String) (d : String) (ho : o ≠ some "") :
    jsOrStr o d = o.getD d := by
  cases o with
  | none => rfl
  | some c =>
    have hc : ¬(c = "") := fun hce => ho (by rw [hce])
    simp [jsOrStr, hc]

lemma updateLocal_ok (noteId userId now : String) (updates : Updates)
    (notes notes2 : List Note) (u : Note)
    (h : updateNoteInLocalStorage noteId updates userId now notes = Except.ok (u, notes2)) :
    ∃ cn, storedAt notes noteId userId = some cn ∧
      u = { cn with
            title := updates.title.getD cn.title
            content := updates.content.getD cn.content
            tags := updates.tags.getD cn.tags
            updatedAt := now
            versions := cn.versions ++
              [⟨jsOrStr updates.title cn.title, jsOrStr updates.content cn.content, now⟩] } := by
  unfold updateNoteInLocalStorage at h
  split at h
  · cases h
  · rename_i i hfind
    split at h
    · cases h
    · rename_i cn hget
      cases h
      exact ⟨cn, by simp [storedAt, hfind, hget], rfl⟩

/-- C2 counterexample: updating cexNote (content hello world, one stored
version) with updates.content identical to its stored content still grows
the versions sequence from 1 to 2, so the claim that the versions sequence
is unchanged is false. -/
theorem C2_counterexample :
    cexSameContent.content = some cexNote.content ∧
    (match updateNoteInLocalStorage "1" cexSameContent "u1" "2024-01-02" [cexNote] with
     | Except.ok p => p.1.versions.length
     | Except.error _ => 0) = 2 ∧
    cexNote.versions.length = 1 := by
  refine ⟨by decide, ?_, by decide⟩
  decide

/-- C2 (amended): updating a note always appends exactly one new Version,
even when updates.content is identical to the stored content; identical
content only skips regeneration of the AI enrichment, leaving summary,
embedding, and (absent updates.tags) tags unchanged.  Holds for the remote
path of updateNote and for updateNoteInLocalStorage. -/
theorem C2_update_always_appends (sin cos : Int → ℚ) (noteId userId now : String)
    (updates : Updates) (currentNote : Note) (notes : List Note)
    (hsame : updates.content = some currentNote.content) :
    (∃ u, updateNote sin cos noteId updates userId (some currentNote) true now notes =
        Except.ok (u, notes) ∧
      u.versions = currentNote.versions ++
        [⟨jsOrStr updates.title currentNote.title, currentNote.content, now⟩] ∧
      u.versions.length = currentNote.versions.length + 1 ∧
      u.summary = currentNote.summary ∧
      u.embedding = currentNote.embedding ∧
      u.tags = updates.tags.getD currentNote.tags) ∧
    (∀ u notes2, updateNoteInLocalStorage noteId updates userId now notes =
        Except.ok (u, notes2) →
      ∃ cn, storedAt notes noteId userId = some cn ∧
        u.versions = cn.versions ++
          [⟨jsOrStr updates.title cn.title, jsOrStr updates.content cn.content, now⟩] ∧
        u.versions.length = cn.versions.length + 1) := by
  constructor
  · simp only [updateNote, hsame, or_true, ite_true, eq_self_iff_true]
    rw [jsOrStr_self]
    exact ⟨_, rfl, rfl, by simp, rfl, rfl, rfl⟩
  · intro u notes2 h
    obtain ⟨cn, hcn, hu⟩ := updateLocal_ok noteId userId now updates notes notes2 u h
    subst hu
    exact ⟨cn, hcn, rfl, by simp⟩

/-- C2 witness: the amended statement instantiated at cexNote with an
update carrying the identical content. -/
theorem C2_witness :
    (∃ u, updateNote zfun zfun "1" cexSameContent "u1" (some cexNote) true "2024-01-02" [] =
        Except.ok (u, []) ∧
      u.versions = cexNote.versions ++
        [⟨jsOrStr cexSameContent.title cexNote.title, cexNote.content, "2024-01-02"⟩] ∧
      u.versions.length = cexNote.versions.length + 1 ∧
      u.summary = cexNote.summary ∧
      u.embedding = cexNote.embedding ∧
      u.tags = cexSameContent.tags.getD cexNote.tags) ∧
    (∀ u notes2, updateNoteInLocalStorage "1" cexSameContent "u1" "2024-01-02" [] =
        Except.ok (u, notes2) →
      ∃ cn, storedAt [] "1" "u1" = some cn ∧
        u.versions = cn.versions ++
          [⟨jsOrStr cexSameContent.title cn.title, jsOrStr cexSameContent.content cn.content, "2024-01-02"⟩] ∧
        u.versions.length = cn.versions.length + 1) :=
  C2_update_always_appends zfun zfun "1" "u1" "2024-01-02" cexSameContent cexNote [] (by decide)

/-- C1 counterexample: the original invariant fails in two ways.  First,
updating cexNote with content set to the empty string succeeds, leaves the
note's content empty, yet records the previous content hello world in the
appended version, so the last version's content differs from the note's
current content.  Second, the editor save path cited by the claim also
violates the invariant: a successful handleAutoSave of a new note with
non-empty content persists the note with an empty versions sequence. -/
theorem C1_counterexample :
    cexEmptyContent.content = some "" ∧
    (match updateNoteInLocalStorage "1" cexEmptyContent "u1" "2024-01-02" [cexNote] with
     | Except.ok p => some (p.1.content, (p.1.versions.getLast?).map Version.content)
     | Except.error _ => none) = some ("", some "hello world") ∧
    (match updateNoteInLocalStorage "1" cexEmptyContent "u1" "2024-01-02" [cexNote] with
     | Except.ok p => decide ((p.1.versions.getLast?).map Version.content = some p.1.content)
     | Except.error _ => true) = false ∧
    (match handleAutoSave ⟨"t", "body", [], "", none⟩ none "u1" "2024-01-02" "id1" [] with
     | some p => some (p.1.content, p.1.versions.length)
     | none => none) = some ("body", 0) := by
  refine ⟨by decide, ?_, ?_, ?_⟩ <;> decide

/-- C1 (amended): immediately after a successful save through the notes
service, the note's versions sequence is non-empty and the content of its
last element equals the note's current content, for every create (remote or
fallback) and for every update (remote or fallback) whose updates.content
field is absent or non-empty (an update with the empty string records the
previous content in the appended version instead).  The editor's own save
path does not maintain the invariant: every note it persists carries the
existing note's versions sequence unchanged — empty for a new note — and
never appends a version. -/
theorem C1_versions_after_save (sin cos : Int → ℚ) (noteData : NoteData)
    (userId now noteId : String) (nowMs : Nat) (notes : List Note)
    (remoteId : Option String) (updates : Updates) (currentNote : Note)
    (remoteWriteOk : Bool) (hc : updates.content ≠ some "") :
    ((createNote sin cos noteData userId remoteId now nowMs notes).1.versions ≠ [] ∧
     ((createNote sin cos noteData userId remoteId now nowMs notes).1.versions.getLast?).map
        Version.content =
       some (createNote sin cos noteData userId remoteId now nowMs notes).1.content) ∧
    (∀ u notes2, updateNote sin cos noteId updates userId (some currentNote) remoteWriteOk now notes =
        Except.ok (u, notes2) →
      u.versions ≠ [] ∧
      (u.versions.getLast?).map Version.content = some u.content) ∧
    (∀ u notes2, updateNoteInLocalStorage noteId updates userId now notes =
        Except.ok (u, notes2) →
      u.versions ≠ [] ∧
      (u.versions.getLast?).map Version.content = some u.content) ∧
    (∀ st existingNote userUid newId savedNotes n newNotes,
      handleAutoSave st existingNote userUid now newId savedNotes = some (n, newNotes) →
      n.versions = (match existingNote with
                    | some en => en.versions
                    | none => ([] : List Version))) := by
  refine ⟨?_, ?_, ?_, ?_⟩
  · cases remoteId with
    | some docId => simp [createNote]
    | none => simp [createNote, createNoteInLocalStorage]
  · intro u notes2 h
    cases hrw : remoteWriteOk with
    | true =>
      rw [hrw] at h
      simp only [updateNote, eq_self_iff_true, ite_true] at h
      cases h
      constructor
      · simp
      · simp only [List.getLast?_concat, Option.map_some']
        rw [jsOrStr_eq_getD updates.content currentNote.content hc]
    | false =>
      rw [hrw] at h
      simp only [updateNote, Bool.false_eq_true, ite_false] at h
      obtain ⟨cn, hcn, hu⟩ := updateLocal_ok noteId userId now updates notes notes2 u h
      subst hu
      constructor
      · simp
      · simp only [List.getLast?_concat, Option.map_some']
        rw [jsOrStr_eq_getD updates.content cn.content hc]
  · intro u notes2 h
    obtain ⟨cn, hcn, hu⟩ := updateLocal_ok noteId userId now updates notes notes2 u h
    subst hu
    constructor
    · simp
    · simp only [List.getLast?_concat, Option.map_some']
      rw [jsOrStr_eq_getD updates.content cn.content hc]
  · intro st existingNote userUid newId savedNotes n newNotes hsave
    simp only [handleAutoSave] at hsave
    by_cases hno : (st.title = "" ∧ st.content = "")
    · rw [if_pos hno] at hsave
      exact absurd hsave (by simp)
    · rw [if_neg hno] at hsave
      cases hfind : savedNotes.findIdx?
          (fun m => m.id == (editorNoteData st existingNote userUid now newId).id) with
      | none =>
        rw [hfind] at hsave
        cases hsave
        rfl
      | some i =>
        rw [hfind] at hsave
        cases hsave
        rfl

/-- C1 witness: the amended statement instantiated at a concrete create,
at updates with no content field against cexNote, and at the editor save
path. -/
theorem C1_witness :
    ((createNote zfun zfun ⟨"t", "c", []⟩ "u1" none "2024-01-02" 5 []).1.versions ≠ [] ∧
     ((createNote zfun zfun ⟨"t", "c", []⟩ "u1" none "2024-01-02" 5 []).1.versions.getLast?).map
        Version.content =
       some (createNote zfun zfun ⟨"t", "c", []⟩ "u1" none "2024-01-02" 5 []).1.content) ∧
    (∀ u notes2, updateNote zfun zfun "1" ⟨none, none, none⟩ "u1" (some cexNote) true "2024-01-02" [] =
        Except.ok (u, notes2) →
      u.versions ≠ [] ∧
      (u.versions.getLast?).map Version.content = some u.content) ∧
    (∀ u notes2, updateNoteInLocalStorage "1" ⟨none, none, none⟩ "u1" "2024-01-02" [] =
        Except.ok (u, notes2) →
      u.versions ≠ [] ∧
      (u.versions.getLast?).map Version.content = some u.content) ∧
    (∀ st existingNote userUid newId savedNotes n newNotes,
      handleAutoSave st existingNote userUid "2024-01-02" newId savedNotes = some (n, newNotes) →
      n.versions = (match existingNote with
                    | some en => en.versions
                    | none => ([] : List Version))) :=
  C1_versions_after_save zfun zfun ⟨"t", "c", []⟩ "u1" "2024-01-02" "1" 5 [] none
    ⟨none, none, none⟩ cexNote true (by decide)

end NotesVault

namespace NotesVault

lemma mem_insertBySim (x y : Note × ℚ) (l : List (Note × ℚ)) :
    y ∈ insertBySim x l ↔ y = x ∨ y ∈ l := by
  induction l with
  | nil => simp [insertBySim]
  | cons z zs ih =>
    unfold insertBySim
    by_cases h : z.2 < x.2
    · rw [if_pos h]
      simp [or_left_comm, or_comm]
    · rw [if_neg h]
      simp [ih, or_left_comm]

lemma length_insertBySim (x : Note × ℚ) (l : List (Note × ℚ)) :
    (insertBySim x l).length = l.length + 1 := by
  induction l with
  | nil => rfl
  | cons z zs ih =>
    unfold insertBySim
    by_cases h : z.2 < x.2
    · rw [if_pos h]; rfl
    · rw [if_neg h]; simp [ih]

lemma pairwise_insertBySim (x : Note × ℚ) (l : List (Note × ℚ))
    (hl : l.Pairwise (fun a b => b.2 ≤ a.2)) :
    (insertBySim x l).Pairwise (fun a b => b.2 ≤ a.2) := by
  induction l with
  | nil => simp [insertBySim]
  | cons z zs ih =>
    obtain ⟨hz, hzs⟩ := List.pairwise_cons.mp hl
    unfold insertBySim
    by_cases h : z.2 < x.2
    · rw [if_pos h]
      refine List.pairwise_cons.mpr ⟨?_, hl⟩
      intro y hy
      rcases List.mem_cons.mp hy with rfl | hy2
      · exact le_of_lt h
      · exact le_trans (hz y hy2) (le_of_lt h)
    · rw [if_neg h]
      refine List.pairwise_cons.mpr ⟨?_, ih hzs⟩
      intro y hy
      rcases (mem_insertBySim x y zs).mp hy with rfl | hy2
      · exact le_of_not_lt h
      · exact hz y hy2

lemma mem_sortBySimDesc (y : Note × ℚ) (l : List (Note × ℚ)) :
    y ∈ sortBySimDesc l ↔ y ∈ l := by
  induction l with
  | nil => simp [sortBySimDesc]
  | cons z zs ih => simp [sortBySimDesc, mem_insertBySim, ih]

lemma length_sortBySimDesc (l : List (Note × ℚ)) :
    (sortBySimDesc l).length = l.length := by
  induction l with
  | nil => rfl
  | cons z zs ih => simp [sortBySimDesc, length_insertBySim, ih]

lemma pairwise_sortBySimDesc (l : List (Note × ℚ)) :
    (sortBySimDesc l).Pairwise (fun a b => b.2 ≤ a.2) := by
  induction l with
  | nil => simp [sortBySimDesc]
  | cons z zs ih => exact pairwise_insertBySim z _ ih

lemma cosineSimilarity_ok_of_length (sqrt : ℚ → ℚ) (a b : List ℚ)
    (h : a.length = b.length) : ∃ q, cosineSimilarity sqrt a b = Except.ok q := by
  unfold cosineSimilarity
  rw [if_neg (by simpa using h)]
  by_cases hz : sqrt (sumSquares a) = 0 ∨ sqrt (sumSquares b) = 0
  · exact ⟨0, by rw [if_pos hz]⟩
  · exact ⟨_, by rw [if_neg hz]⟩

lemma scoreAll_some (sqrt : ℚ → ℚ) (qe : List ℚ) (l : List Note)
    (h : ∀ n ∈ l, ∃ e, n.embedding = some e ∧ e.length = qe.length) :
    ∃ scored, scoreAll sqrt qe l = some scored ∧
      scored.length = l.length ∧
      ∀ p ∈ scored, p.1 ∈ l ∧ ∃ e, p.1.embedding = some e ∧
        cosineSimilarity sqrt qe e = Except.ok p.2 := by
  induction l with
  | nil => exact ⟨[], rfl, rfl, by simp⟩
  | cons n ns ih =>
    obtain ⟨e, he, hlen⟩ := h n (by simp)
    obtain ⟨q, hq⟩ := cosineSimilarity_ok_of_length sqrt qe e hlen.symm
    obtain ⟨scored, hsc, hlen2, hmem⟩ := ih (fun m hm => h m (List.mem_cons_of_mem _ hm))
    refine ⟨(n, q) :: scored, ?_, by simp [hlen2], ?_⟩
    · simp [scoreAll, he, hq, hsc]
    · intro p hp
      rcases List.mem_cons.mp hp with rfl | hp2
      · exact ⟨by simp, e, he, hq⟩
      · obtain ⟨hm1, he2⟩ := hmem p hp2
        exact ⟨List.mem_cons_of_mem _ hm1, he2⟩

set_option maxRecDepth 8192 in
lemma getEmbedding_value (sin cos : Int → ℚ) (text : String) :
    (getEmbedding sin cos text).value = generateMockEmbedding sin cos (cleanTextForAI text) := by
  simp only [getEmbedding]
  split <;> rfl

/-- C9: when every stored embedding matches the query embedding's
dimension (the corpus-wide invariant; the mock query embedding has length
1536), semanticSearch returns only notes that have a stored embedding
(notes lacking one are excluded entirely), each paired with its cosine
similarity to the query embedding, ordered by descending similarity, and
truncated to the result limit, whose default is 10. -/
theorem C9_semantic (sin cos : Int → ℚ) (sqrt : ℚ → ℚ) (query : String)
    (notes : List Note) (limit : Nat)
    (hdim : ∀ n ∈ notes, ∀ e, n.embedding = some e →
      e.length = ((getEmbedding sin cos query).value).length) :
    (∀ p ∈ semanticSearch sin cos sqrt query notes limit,
       p.1 ∈ notes ∧ p.1.embedding.isSome = true ∧
       ∃ e, p.1.embedding = some e ∧
         cosineSimilarity sqrt (getEmbedding sin cos query).value e = Except.ok p.2) ∧
    (semanticSearch sin cos sqrt query notes limit).Pairwise (fun p q => q.2 ≤ p.2) ∧
    (semanticSearch sin cos sqrt query notes limit).length =
      min limit (notes.filter (fun n => n.embedding.isSome)).length ∧
    ((getEmbedding sin cos query).value).length = 1536 ∧
    semanticSearchDefault sin cos sqrt query notes =
      semanticSearch sin cos sqrt query notes 10 := by
  have hfil : ∀ n ∈ notes.filter (fun n => n.embedding.isSome),
      ∃ e, n.embedding = some e ∧ e.length = ((getEmbedding sin cos query).value).length := by
    intro n hn
    obtain ⟨hn1, hn2⟩ := List.mem_filter.mp hn
    obtain ⟨e, he⟩ := Option.isSome_iff_exists.mp hn2
    exact ⟨e, he, hdim n hn1 e he⟩
  obtain ⟨scored, hsc, hlen, hmem⟩ :=
    scoreAll_some sqrt ((getEmbedding sin cos query).value) _ hfil
  have hss : semanticSearch sin cos sqrt query notes limit =
      (sortBySimDesc scored).take limit := by
    unfold semanticSearch
    rw [hsc]
  refine ⟨?_, ?_, ?_, ?_, rfl⟩
  · intro p hp
    rw [hss] at hp
    have hp2 : p ∈ sortBySimDesc scored := List.take_subset _ _ hp
    have hp3 : p ∈ scored := (mem_sortBySimDesc p scored).mp hp2
    obtain ⟨hm1, e, he, hq⟩ := hmem p hp3
    obtain ⟨hm2, hm3⟩ := List.mem_filter.mp hm1
    exact ⟨hm2, hm3, e, he, hq⟩
  · rw [hss]
    exact (pairwise_sortBySimDesc scored).sublist (List.take_sublist _ _)
  · rw [hss, List.length_take, length_sortBySimDesc, hlen]
  · rw [getEmbedding_value, generateMockEmbedding_eq, List.length_map, List.length_range]

set_option maxRecDepth 8192 in
/-- C9 witness: a two-note collection where noteNoEmb lacks an embedding
and noteWithEmb stores an embedding of the query's own dimension. -/
theorem C9_witness :
    (∀ p ∈ semanticSearch zfun zfun zsqrt "some query" [noteNoEmb, noteWithEmb] 10,
       p.1 ∈ [noteNoEmb, noteWithEmb] ∧ p.1.embedding.isSome = true ∧
       ∃ e, p.1.embedding = some e ∧
         cosineSimilarity zsqrt (getEmbedding zfun zfun "some query").value e = Except.ok p.2) ∧
    (semanticSearch zfun zfun zsqrt "some query" [noteNoEmb, noteWithEmb] 10).Pairwise
      (fun p q => q.2 ≤ p.2) ∧
    (semanticSearch zfun zfun zsqrt "some query" [noteNoEmb, noteWithEmb] 10).length =
      min 10 ([noteNoEmb, noteWithEmb].filter (fun n => n.embedding.isSome)).length ∧
    ((getEmbedding zfun zfun "some query").value).length = 1536 ∧
    semanticSearchDefault zfun zfun zsqrt "some query" [noteNoEmb, noteWithEmb] =
      semanticSearch zfun zfun zsqrt "some query" [noteNoEmb, noteWithEmb] 10 := by
  refine C9_semantic zfun zfun zsqrt "some query" [noteNoEmb, noteWithEmb] 10 ?_
  intro n hn e he
  rcases (by simpa using hn : n = noteNoEmb ∨ n = noteWithEmb) with rfl | rfl
  · simp [noteNoEmb] at he
  · simp only [noteWithEmb] at he
    cases he
    rfl

end NotesVault

namespace NotesVault

/-- Adjacent characters are not both whitespace. -/
def noTwoWs (a b : Char) : Prop := ¬(isJsWs a = true ∧ isJsWs b = true)

lemma collapseWs_mem (b : Bool) (l : List Char) (c : Char)
    (hc : c ∈ collapseWsAux b l) (hws : isJsWs c = true) : c = ' ' := by
  induction l generalizing b with
  | nil => cases hc
  | cons d rest ih =>
    unfold collapseWsAux at hc
    by_cases hd : isJsWs d = true
    · rw [if_pos hd] at hc
      cases b with
      | true => exact ih true (by simpa using hc)
      | false =>
        rcases List.mem_cons.mp (by simpa using hc) with rfl | hc2
        · rfl
        · exact ih true hc2
    · rw [if_neg hd] at hc
      rcases List.mem_cons.mp hc with rfl | hc2
      · exact absurd hws hd
      · exact ih false hc2

lemma collapseWs_head_true (l : List Char) (c : Char)
    (hc : (collapseWsAux true l).head? = some c) : isJsWs c = false := by
  induction l with
  | nil => cases hc
  | cons d rest ih =>
    unfold collapseWsAux at hc
    by_cases hd : isJsWs d = true
    · rw [if_pos hd] at hc
      exact ih (by simpa using hc)
    · rw [if_neg hd] at hc
      have : d = c := by simpa using hc
      subst this
      simpa using hd

lemma collapseWs_chain (l : List Char) (b : Bool) :
    (collapseWsAux b l).Chain' noTwoWs := by
  induction l generalizing b with
  | nil => simp [collapseWsAux]
  | cons d rest ih =>
    unfold collapseWsAux
    by_cases hd : isJsWs d = true
    · rw [if_pos hd]
      cases b with
      | true => exact ih true
      | false =>
        simp only [if_neg (by simp : ¬(false = true))]
        refine List.chain'_cons'.mpr ⟨?_, ih true⟩
        intro y hy
        exact fun hand => by simp [collapseWs_head_true rest y hy] at hand
    · rw [if_neg hd]
      refine List.chain'_cons'.mpr ⟨?_, ih false⟩
      intro y hy
      exact fun hand => hd hand.1

lemma collapseNl_id (l : List Char) (h : '\n' ∉ l) : collapseNlAux false l = l := by
  induction l with
  | nil => rfl
  | cons c rest ih =>
    have hc : ¬(c = '\n') := fun hcc => h (hcc ▸ List.mem_cons_self c rest)
    unfold collapseNlAux
    rw [if_neg hc, ih (fun hm => h (List.mem_cons_of_mem _ hm))]

lemma dropWhile_eq_self_of_head (p : Char → Bool) (l : List Char)
    (h : ∀ c, l.head? = some c → p c = false) : l.dropWhile p = l := by
  cases l with
  | nil => rfl
  | cons c rest => simp [List.dropWhile_cons, h c rfl]

lemma head_dropWhile (p : Char → Bool) (l : List Char) (c : Char)
    (hc : (l.dropWhile p).head? = some c) : p c = false := by
  induction l with
  | nil => cases hc
  | cons d rest ih =>
    rw [List.dropWhile_cons] at hc
    by_cases hd : p d = true
    · rw [if_pos hd] at hc
      exact ih hc
    · rw [if_neg hd] at hc
      have : d = c := by simpa using hc
      subst this
      simpa using hd

lemma jsTrim_subset (l : List Char) : ∀ c ∈ jsTrim l, c ∈ l := by
  intro c hc
  unfold jsTrim at hc
  rw [List.mem_reverse] at hc
  have h1 := (List.dropWhile_suffix isJsWs).subset hc
  rw [List.mem_reverse] at h1
  exact (List.dropWhile_suffix isJsWs).subset h1

lemma chain_noTwoWs_reverse (l : List Char) (h : l.Chain' noTwoWs) :
    l.reverse.Chain' noTwoWs := by
  rw [List.chain'_reverse]
  exact h.imp (fun a b hab hand => hab ⟨hand.2, hand.1⟩)

lemma jsTrim_chain (l : List Char) (h : l.Chain' noTwoWs) :
    (jsTrim l).Chain' noTwoWs := by
  unfold jsTrim
  apply chain_noTwoWs_reverse
  exact (chain_noTwoWs_reverse _ (h.suffix (List.dropWhile_suffix isJsWs))).suffix
    (List.dropWhile_suffix isJsWs)

lemma suffix_getLast? (l L : List Char) (hs : l <:+ L) (hne : l ≠ []) :
    l.getLast? = L.getLast? := by
  obtain ⟨t, rfl⟩ := hs
  rw [List.getLast?_append]
  cases hl : l.getLast? with
  | none => exact absurd (List.getLast?_eq_none_iff.mp hl) hne
  | some c => rfl

lemma jsTrim_idem (l : List Char) : jsTrim (jsTrim l) = jsTrim l := by
  unfold jsTrim
  set A := l.dropWhile isJsWs with hA
  set B := A.reverse.dropWhile isJsWs with hB
  have hBlast : ∀ c, B.getLast? = some c → isJsWs c = false := by
    intro c hc
    have hne : B ≠ [] := by
      intro hnil
      rw [hnil] at hc
      cases hc
    have h1 : B.getLast? = A.reverse.getLast? :=
      suffix_getLast? B A.reverse (List.dropWhile_suffix isJsWs) hne
    rw [h1, List.getLast?_reverse] at hc
    exact head_dropWhile isJsWs l c (hA ▸ hc)
  have hrev : B.reverse.dropWhile isJsWs = B.reverse := by
    apply dropWhile_eq_self_of_head
    intro c hc
    rw [List.head?_reverse] at hc
    exact hBlast c hc
  rw [hrev, List.reverse_reverse]
  have hBhead : B.dropWhile isJsWs = B := by
    apply dropWhile_eq_self_of_head
    intro c hc
    exact head_dropWhile isJsWs A.reverse c (hB ▸ hc)
  rw [hBhead]

lemma collapseWs_true_eq_false (l : List Char)
    (h : ∀ c, l.head? = some c → isJsWs c = false) :
    collapseWsAux true l = collapseWsAux false l := by
  cases l with
  | nil => rfl
  | cons c rest =>
    have hc : isJsWs c = false := h c rfl
    unfold collapseWsAux
    rw [if_neg (by simp [hc]), if_neg (by simp [hc])]

lemma collapseWs_id (l : List Char)
    (h1 : ∀ c ∈ l, isJsWs c = true → c = ' ')
    (h2 : l.Chain' noTwoWs) : collapseWsAux false l = l := by
  induction l with
  | nil => rfl
  | cons c rest ih =>
    obtain ⟨hhead, htail⟩ := List.chain'_cons'.mp h2
    have ihrest : collapseWsAux false rest = rest :=
      ih (fun d hd => h1 d (List.mem_cons_of_mem _ hd)) htail
    by_cases hc : isJsWs c = true
    · have hcsp : c = ' ' := h1 c (List.mem_cons_self c rest) hc
      have hresthead : ∀ d, rest.head? = some d → isJsWs d = false := by
        intro d hd
        by_contra hdws
        exact (hhead d hd) ⟨hc, by simpa using hdws⟩
      unfold collapseWsAux
      rw [if_pos hc, if_neg (by simp : ¬(false = true)),
        collapseWs_true_eq_false rest hresthead, ihrest, hcsp]
    · unfold collapseWsAux
      rw [if_neg hc, ihrest]

end NotesVault

namespace NotesVault

set_option maxHeartbeats 1000000 in
lemma stripHtml_cons_ne (c : Char) (rest : List Char) (h1 : c ≠ '<') (h2 : c ≠ '&') :
    stripHtmlAux false (c :: rest) = c :: stripHtmlAux false rest := by
  rw [stripHtmlAux.eq_def]
  split <;> simp_all
lemma stripHtml_no_markup (l : List Char) (h1 : '<' ∉ l) (h2 : '&' ∉ l) :
    stripHtmlAux false l = l := by
  induction l with
  | nil => rfl
  | cons c rest ih =>
    have hc1 : c ≠ '<' := fun hcc => h1 (hcc ▸ List.mem_cons_self c rest)
    have hc2 : c ≠ '&' := fun hcc => h2 (hcc ▸ List.mem_cons_self c rest)
    rw [stripHtml_cons_ne c rest hc1 hc2,
      ih (fun hm => h1 (List.mem_cons_of_mem _ hm)) (fun hm => h2 (List.mem_cons_of_mem _ hm))]

end NotesVault

namespace NotesVault

/-- C5 counterexample: normalize is not idempotent: the input with
entity references for angle brackets around b normalizes to a string
containing a literal tag, which the second normalization strips away. -/
theorem C5_counterexample :
    cleanTextForAI "x&lt;b&gt;" = "x<b>" ∧
    cleanTextForAI (cleanTextForAI "x&lt;b&gt;") = "x" ∧
    cleanTextForAI (cleanTextForAI "x&lt;b&gt;") ≠ cleanTextForAI "x&lt;b&gt;" := by
  refine ⟨by decide, by decide, by decide⟩

/-- C5 (amended): normalize is idempotent on every input whose normalized
output contains neither a less-than sign nor an ampersand; entity
references can otherwise decode to characters that the second pass
re-parses as markup. -/
theorem C5_idempotent_no_markup_chars (x : String)
    (h : '<' ∉ (cleanTextForAI x).data ∧ '&' ∉ (cleanTextForAI x).data) :
    cleanTextForAI (cleanTextForAI x) = cleanTextForAI x := by
  obtain ⟨h1, h2⟩ := h
  by_cases hx : x = ""
  · subst hx; rfl
  · by_cases hy0 : cleanTextForAI x = ""
    · rw [hy0]
      rfl
    · have hydata : (cleanTextForAI x).data =
          jsTrim (collapseWsAux false (stripHtmlAux false x.data)) := by
        unfold cleanTextForAI
        rw [if_neg hx]
        have hnl : '\n' ∉ collapseWsAux false (stripHtmlAux false x.data) := by
          intro hmem
          have := collapseWs_mem false _ '\n' hmem (by decide)
          exact absurd this (by decide)
        rw [collapseNl_id _ hnl]
      have hmemy : ∀ c ∈ (cleanTextForAI x).data, isJsWs c = true → c = ' ' := by
        intro c hc hws
        rw [hydata] at hc
        exact collapseWs_mem false _ c (jsTrim_subset _ c hc) hws
      have hchainy : (cleanTextForAI x).data.Chain' noTwoWs := by
        rw [hydata]
        exact jsTrim_chain _ (collapseWs_chain _ false)
      have hnl2 : '\n' ∉ (cleanTextForAI x).data := by
        intro hmem
        exact absurd (hmemy _ hmem (by decide)) (by decide)
      conv_lhs => rw [cleanTextForAI]
      rw [if_neg hy0, stripHtml_no_markup _ h1 h2, collapseWs_id _ hmemy hchainy,
        collapseNl_id _ hnl2, hydata, jsTrim_idem, ← hydata]

/-- C5 witness: the input a with doubled interior spaces normalizes to a
markup-free string, on which normalize is idempotent. -/
theorem C5_witness :
    ('<' ∉ (cleanTextForAI "a  b").data ∧ '&' ∉ (cleanTextForAI "a  b").data) ∧
    cleanTextForAI (cleanTextForAI "a  b") = cleanTextForAI "a  b" :=
  ⟨by decide, C5_idempotent_no_markup_chars "a  b" (by decide)⟩

end NotesVault
